import Mathlib

/-!
Verification development for a retrieval-augmented-generation (RAG) pipeline:
chunk PDF text into overlapping windows, embed each chunk, index the
embeddings in an in-memory vector store, retrieve the nearest entries for a
query, render them into a prompt template and call a chat model.

The pipeline itself is glue over external libraries (document loader, text
splitter, embeddings model, vector store, chat model).  The glue code is
embedded directly; every external component is modelled from the spec, each
such definition notes what it stands in for.
-/

/-- A document: a span of text together with its provenance (source file).
Mirrors the langchain Document objects produced by the loader and splitter. -/
structure Document where
  page_content : String
  source : String
deriving DecidableEq, Repr

/-- Modelled from the spec: the external RecursiveCharacterTextSplitter,
described by the spec as cutting the text into overlapping fixed-length
windows of size at most `C` where consecutive windows share `O` characters
(stride `C - O`).  `fuel` bounds the recursion; callers pass the text length,
which suffices whenever `O < C`. -/
def splitChunks (C O : Nat) : Nat → List Char → List (List Char)
  | 0, s => if s.length = 0 then [] else [s]
  | fuel + 1, s =>
      if s.length = 0 then []
      else if s.length ≤ C then [s]
      else s.take C :: splitChunks C O fuel (s.drop (C - O))

/-- Chunk a text into overlapping windows of size `C` with overlap `O`. -/
def chunkText (C O : Nat) (s : List Char) : List (List Char) :=
  splitChunks C O s.length s

/-- Drop the leading overlap of every chunk after the first and concatenate:
the de-duplicating concatenation used to state reconstruction. -/
def dedupTail (O : Nat) : List (List Char) → List Char
  | [] => []
  | c :: cs => c.drop O ++ dedupTail O cs

/-- De-duplicating concatenation: keep the first chunk whole, drop the
leading `O` characters of every later chunk. -/
def dedupJoin (O : Nat) : List (List Char) → List Char
  | [] => []
  | c :: cs => c ++ dedupTail O cs

/-- Two consecutive chunks share the trailing / leading `O` characters. -/
def overlapRel (O : Nat) (a b : List Char) : Prop :=
  a.drop (a.length - O) = b.take O

instance (O : Nat) (a b : List Char) : Decidable (overlapRel O a b) :=
  inferInstanceAs (Decidable (a.drop (a.length - O) = b.take O))

theorem splitChunks_head (C O : Nat) (fuel : Nat) (s : List Char)
    (hne : s.length ≠ 0) (hf : s.length ≤ fuel) :
    ∃ t, splitChunks C O fuel s = s.take C :: t := by
  cases fuel with
  | zero => omega
  | succ fuel =>
      simp only [splitChunks]
      rw [if_neg hne]
      by_cases h : s.length ≤ C
      · rw [if_pos h]
        exact ⟨[], by rw [List.take_of_length_le h]⟩
      · rw [if_neg h]
        exact ⟨_, rfl⟩

theorem splitChunks_length (C O : Nat) (hO : O < C) :
    ∀ fuel s, s.length ≤ fuel → O < s.length →
      (splitChunks C O fuel s).length = (s.length - O + (C - O) - 1) / (C - O)
  | 0, s, hf, hL => by omega
  | fuel + 1, s, hf, hL => by
      simp only [splitChunks]
      rw [if_neg (by omega : ¬s.length = 0)]
      by_cases h : s.length ≤ C
      · rw [if_pos h]
        have h1 : 1 * (C - O) ≤ s.length - O + (C - O) - 1 := by omega
        have h2 : s.length - O + (C - O) - 1 < (1 + 1) * (C - O) := by omega
        rw [List.length_singleton]
        exact (Nat.div_eq_of_lt_le h1 h2).symm
      · rw [if_neg h]
        have hlen : (s.drop (C - O)).length = s.length - (C - O) :=
          List.length_drop _ _
        have hf' : (s.drop (C - O)).length ≤ fuel := by omega
        have hL' : O < (s.drop (C - O)).length := by omega
        have ih := splitChunks_length C O hO fuel (s.drop (C - O)) hf' hL'
        rw [List.length_cons, ih, hlen]
        have hsum : s.length - O + (C - O) - 1
            = (s.length - (C - O) - O + (C - O) - 1) + (C - O) := by omega
        rw [hsum, Nat.add_div_right _ (by omega : 0 < C - O)]

theorem splitChunks_chain (C O : Nat) (hO : O < C) :
    ∀ fuel s, s.length ≤ fuel →
      List.Chain' (overlapRel O) (splitChunks C O fuel s)
  | 0, s, hf => by
      simp only [splitChunks]
      rw [if_pos (by omega : s.length = 0)]
      exact List.chain'_nil
  | fuel + 1, s, hf => by
      simp only [splitChunks]
      by_cases h0 : s.length = 0
      · rw [if_pos h0]
        exact List.chain'_nil
      · rw [if_neg h0]
        by_cases h : s.length ≤ C
        · rw [if_pos h]
          exact List.chain'_singleton _
        · rw [if_neg h]
          have hlen : (s.drop (C - O)).length = s.length - (C - O) :=
            List.length_drop _ _
          have hf' : (s.drop (C - O)).length ≤ fuel := by omega
          have hne : (s.drop (C - O)).length ≠ 0 := by omega
          obtain ⟨t, ht⟩ := splitChunks_head C O fuel (s.drop (C - O)) hne hf'
          have hchain := splitChunks_chain C O hO fuel (s.drop (C - O)) hf'
          rw [ht] at hchain ⊢
          refine List.chain'_cons.mpr ⟨?_, hchain⟩
          unfold overlapRel
          have htklen : (s.take C).length = C := by
            rw [List.length_take]; omega
          rw [htklen, List.drop_take, List.take_take]
          have e1 : C - (C - O) = O := by omega
          have e2 : min O C = O := by omega
          rw [e1, e2]

theorem splitChunks_dedupJoin (C O : Nat) (hO : O < C) :
    ∀ fuel s, s.length ≤ fuel →
      dedupJoin O (splitChunks C O fuel s) = s
  | 0, s, hf => by
      have h0 : s.length = 0 := by omega
      simp only [splitChunks]
      rw [if_pos h0]
      exact (List.length_eq_zero.mp h0).symm
  | fuel + 1, s, hf => by
      simp only [splitChunks]
      by_cases h0 : s.length = 0
      · rw [if_pos h0]
        exact (List.length_eq_zero.mp h0).symm
      · rw [if_neg h0]
        by_cases h : s.length ≤ C
        · rw [if_pos h]
          simp [dedupJoin, dedupTail]
        · rw [if_neg h]
          have hlen : (s.drop (C - O)).length = s.length - (C - O) :=
            List.length_drop _ _
          have hf' : (s.drop (C - O)).length ≤ fuel := by omega
          have hne : (s.drop (C - O)).length ≠ 0 := by omega
          obtain ⟨t, ht⟩ := splitChunks_head C O fuel (s.drop (C - O)) hne hf'
          have ih := splitChunks_dedupJoin C O hO fuel (s.drop (C - O)) hf'
          rw [ht] at ih
          simp only [dedupJoin] at ih
          have hblen : O ≤ ((s.drop (C - O)).take C).length := by
            rw [List.length_take]; omega
          simp only [dedupJoin, ht, dedupTail]
          rw [← List.append_assoc, List.append_assoc (s.take C),
            ← List.drop_append_of_le_length hblen, ih, List.drop_drop]
          have e1 : C - O + O = C := by omega
          rw [e1, List.take_append_drop]

/-- Modelled from the spec: the state of the input directory seen by the
external DirectoryLoader (directory present with documents, present but
empty, missing, or unreadable). -/
inductive DirState where
  | missing : DirState
  | unreadable : DirState
  | noDocs : DirState
  | hasDocs : List Document → DirState
deriving DecidableEq, Repr

/-- Modelled from the spec: the external DirectoryLoader.  Per the spec a
missing or unreadable directory, or a directory with no documents, is
reported as a load failure; otherwise the documents are returned. -/
def DirectoryLoader_load : DirState → Except String (List Document)
  | DirState.missing => Except.error "directory missing"
  | DirState.unreadable => Except.error "directory unreadable"
  | DirState.noDocs => Except.error "no documents found"
  | DirState.hasDocs docs => Except.ok docs

/-- Split every loaded document into chunks, keeping provenance.  This is the
load_and_split step of create_chunks_from_pdf. -/
def splitDocs (C O : Nat) : List Document → List Document
  | [] => []
  | d :: ds =>
      (chunkText C O d.page_content.toList).map
        (fun c => Document.mk (String.mk c) d.source) ++ splitDocs C O ds

/-- create_chunks_from_pdf: load the documents of a directory and split them
into chunks of size chunk_size with overlap chunk_overlap.  The load step is
the result of the external DirectoryLoader; a load error propagates. -/
def create_chunks_from_pdf (loaded : Except String (List Document))
    (chunk_size chunk_overlap : Nat) : Except String (List Document) :=
  match loaded with
  | Except.error e => Except.error e
  | Except.ok docs => Except.ok (splitDocs chunk_size chunk_overlap docs)

/-- An index entry: the chunk text paired with its embedding vector.
Mirrors the (vector, text) pairs stored by the Qdrant vector store. -/
structure Entry where
  text : String
  vec : List Int
deriving DecidableEq, Repr

/-- Modelled from the spec: Qdrant.from_documents embeds every chunk's text
with the given embedder and stores (text, vector) entries in memory. -/
def from_documents (embed : String → List Int) (docs : List Document) :
    List Entry :=
  docs.map (fun d => Entry.mk d.page_content (embed d.page_content))

/-- Ordering of entries by similarity score, most similar first. -/
def moreSim (score : List Int → Int) (a b : Entry) : Prop :=
  score b.vec ≤ score a.vec

instance (score : List Int → Int) (a b : Entry) :
    Decidable (moreSim score a b) :=
  inferInstanceAs (Decidable (score b.vec ≤ score a.vec))

instance (score : List Int → Int) : IsTotal Entry (moreSim score) :=
  ⟨fun a b => le_total (score b.vec) (score a.vec)⟩

instance (score : List Int → Int) : IsTrans Entry (moreSim score) :=
  ⟨fun _ _ _ h1 h2 => le_trans h2 h1⟩

/-- Modelled from the spec: nearest-neighbour search of the vector store —
rank all entries by similarity to the query vector and keep the best k. -/
def similarity_search (score : List Int → Int) (idx : List Entry) (k : Nat) :
    List Entry :=
  (idx.insertionSort (moreSim score)).take k

/-- Modelled from the spec: retrieve(query, k) embeds the query with the
same embedder and returns the k entries nearest under the similarity
metric `sim`. -/
def retrieve (sim : List Int → List Int → Int) (embed : String → List Int)
    (idx : List Entry) (q : String) (k : Nat) : List Entry :=
  similarity_search (sim (embed q)) idx k

/-- Modelled from the spec: qdrant.as_retriever() takes no k argument and
uses the vector store's default top-k of 4. -/
def as_retriever (sim : List Int → List Int → Int)
    (embed : String → List Int) (idx : List Entry) : String → List Entry :=
  fun q => retrieve sim embed idx q 4

/-- index_documents_and_retrieve: index the chunk documents with the given
embedder and hand back a retriever over the resulting in-memory index. -/
def index_documents_and_retrieve (sim : List Int → List Int → Int)
    (embed : String → List Int) (docs : List Document) :
    String → List Entry :=
  as_retriever sim embed (from_documents embed docs)

/-- A chat-model response message; its content is the generated text. -/
structure ChatMessage where
  content : String
deriving DecidableEq, Repr

/-- StrOutputParser of the chain: extract the message content verbatim. -/
def strOutputParse (m : ChatMessage) : String :=
  m.content

/-- Modelled from the spec: the retrieved entries are concatenated into the
context block placed into the prompt. -/
def format_context (es : List Entry) : String :=
  String.join (es.map (fun e => e.text))

/-- The fixed prompt template of build_rag_chain with {context} and
{question} substituted. -/
def PromptTemplate_format (context question : String) : String :=
  "\n        Answer the question based only on the following context:\n        \n        "
    ++ context
    ++ "\n        \n        Question: "
    ++ question
    ++ "\n        "

/-- The input assembled for the prompt by the parallel step of the chain. -/
structure PromptInput where
  context : String
  question : String
deriving DecidableEq, Repr

/-- Runnable composition: feed the output of the first step to the second. -/
def pipeStep {α β γ : Type} (f : α → β) (g : β → γ) : α → γ :=
  fun a => g (f a)

/-- RunnablePassthrough: forward the input unchanged. -/
def RunnablePassthrough (q : String) : String :=
  q

/-- build_rag_chain: compose the parallel retriever/passthrough step, the
prompt template, the chat model and the output parse step, exactly in the
order of the source chain. -/
def build_rag_chain (llm : String → ChatMessage)
    (retriever : String → List Entry) : String → String :=
  pipeStep
    (pipeStep
      (pipeStep
        (fun q => PromptInput.mk (format_context (retriever q))
          (RunnablePassthrough q))
        (fun p => PromptTemplate_format p.context p.question))
      llm)
    strOutputParse

/-- The chain with fallible external services: the retriever and the chat
model may fail, and the chain itself adds no handling around them. -/
def rag_chain_except (retrieverE : String → Except String (List Entry))
    (llmE : String → Except String ChatMessage) (q : String) :
    Except String String :=
  match retrieverE q with
  | Except.error e => Except.error e
  | Except.ok ds =>
      match llmE (PromptTemplate_format (format_context ds) q) with
      | Except.error e => Except.error e
      | Except.ok m => Except.ok (strOutputParse m)

/-- One retrieval call seen as a state transformer on the index: it returns
the retrieved entries and the index it leaves behind. -/
def retrieve_step (sim : List Int → List Int → Int)
    (embed : String → List Int) (k : Nat) (idx : List Entry) (q : String) :
    List Entry × List Entry :=
  (retrieve sim embed idx q k, idx)

/-- Run a sequence of retrieval calls, threading the index state through,
and return the final index. -/
def run_queries (sim : List Int → List Int → Int)
    (embed : String → List Int) (k : Nat) (idx : List Entry) :
    List String → List Entry
  | [] => idx
  | q :: qs =>
      run_queries sim embed k (retrieve_step sim embed k idx q).2 qs

/-- A concrete integer dot product, used as a sample similarity metric. -/
def dotProduct : List Int → List Int → Int
  | [], _ => 0
  | _, [] => 0
  | a :: as, b :: bs => a * b + dotProduct as bs

/-- A concrete sample embedder mapping a string to a one-dimensional
vector, used to instantiate witnesses. -/
def lengthEmbed (s : String) : List Int :=
  [(s.length : Int)]

theorem retrieve_length (sim : List Int → List Int → Int)
    (embed : String → List Int) (idx : List Entry) (q : String) (k : Nat) :
    (retrieve sim embed idx q k).length = min k idx.length := by
  unfold retrieve similarity_search
  rw [List.length_take, List.length_insertionSort]

theorem run_queries_id (sim : List Int → List Int → Int)
    (embed : String → List Int) (k : Nat) :
    ∀ qs idx, run_queries sim embed k idx qs = idx
  | [], _ => rfl
  | _ :: qs, idx => run_queries_id sim embed k qs idx

theorem from_documents_vec (embed : String → List Int)
    (docs : List Document) :
    ∀ e ∈ from_documents embed docs, e.vec = embed e.text := by
  intro e he
  unfold from_documents at he
  obtain ⟨d, _, rfl⟩ := List.mem_map.mp he
  rfl

/-- C1 as stated is false: on the one-character text "a" with chunk length
2 and overlap 1 the chunker produces one chunk, while the claimed count
ceil((L − O) / (C − O)) equals 0. -/
theorem chunker_count_counterexample :
    (chunkText 2 1 "a".toList).length = 1 ∧
      ("a".toList.length - 1 + (2 - 1) - 1) / (2 - 1) = 0 := by
  decide

/-- C1 (amended): for a text of length L > O with chunk length C and
overlap O < C, the chunker produces ceil((L − O) / (C − O)) chunks,
consecutive chunks share the trailing / leading O characters, and
concatenating the chunks while de-duplicating each overlapping region
reconstructs the original text exactly (so the ordered chunks cover all the
text with no gaps). -/
theorem chunker_count_overlap_reconstruct (C O : Nat) (s : List Char)
    (hO : O < C) (hL : O < s.length) :
    (chunkText C O s).length = (s.length - O + (C - O) - 1) / (C - O) ∧
      List.Chain' (overlapRel O) (chunkText C O s) ∧
      dedupJoin O (chunkText C O s) = s :=
  ⟨splitChunks_length C O hO s.length s le_rfl hL,
    splitChunks_chain C O hO s.length s le_rfl,
    splitChunks_dedupJoin C O hO s.length s le_rfl⟩

theorem chunker_count_overlap_reconstruct_witness :
    (chunkText 3 1 "abcde".toList).length
        = ("abcde".toList.length - 1 + (3 - 1) - 1) / (3 - 1) ∧
      List.Chain' (overlapRel 1) (chunkText 3 1 "abcde".toList) ∧
      dedupJoin 1 (chunkText 3 1 "abcde".toList) = "abcde".toList :=
  chunker_count_overlap_reconstruct 3 1 "abcde".toList (by decide) (by decide)

/-- C2: the answering pipeline retrieves the top-k (k = 4) index entries
for the query, concatenates their text into a context block, substitutes
the block for {context} and the query for {question} in the fixed
template, sends the rendered prompt to the language model, and returns the
model's raw text output verbatim with no post-processing. -/
theorem rag_chain_returns_model_output_verbatim
    (sim : List Int → List Int → Int) (embed : String → List Int)
    (docs : List Document) (llm : String → ChatMessage) (q : String) :
    build_rag_chain llm (index_documents_and_retrieve sim embed docs) q
      = (llm (PromptTemplate_format
          (format_context
            (retrieve sim embed (from_documents embed docs) q 4)) q)).content :=
  rfl

/-- C3: retrieve(query, k) embeds the query with the same embedder used to
embed the chunks at indexing time, and the entries it returns are the k
nearest under the similarity metric: together with the remaining entries
they are a permutation of the index, and every returned entry scores at
least as high as every remaining one. -/
theorem retrieve_returns_nearest (sim : List Int → List Int → Int)
    (embed : String → List Int) (docs : List Document) (q : String)
    (k : Nat) :
    ∃ rest : List Entry,
      (retrieve sim embed (from_documents embed docs) q k ++ rest).Perm
          (from_documents embed docs) ∧
        (∀ a ∈ retrieve sim embed (from_documents embed docs) q k,
          ∀ b ∈ rest, sim (embed q) b.vec ≤ sim (embed q) a.vec) ∧
        ∀ e ∈ from_documents embed docs, e.vec = embed e.text := by
  refine ⟨(List.insertionSort (moreSim (sim (embed q)))
      (from_documents embed docs)).drop k, ?_, ?_, from_documents_vec embed docs⟩
  · unfold retrieve similarity_search
    rw [List.take_append_drop]
    exact List.perm_insertionSort _ _
  · have hp : List.Pairwise (moreSim (sim (embed q)))
        (List.insertionSort (moreSim (sim (embed q)))
          (from_documents embed docs)) :=
      List.sorted_insertionSort _ _
    rw [← List.take_append_drop k (List.insertionSort (moreSim (sim (embed q)))
      (from_documents embed docs))] at hp
    exact fun a ha b hb => (List.pairwise_append.mp hp).2.2 a ha b hb

theorem retrieve_returns_nearest_witness :
    ∃ rest : List Entry,
      (retrieve dotProduct lengthEmbed
            (from_documents lengthEmbed [Document.mk "llama" "d.pdf",
              Document.mk "alpaca" "d.pdf"]) "q" 1 ++ rest).Perm
          (from_documents lengthEmbed [Document.mk "llama" "d.pdf",
            Document.mk "alpaca" "d.pdf"]) ∧
        (∀ a ∈ retrieve dotProduct lengthEmbed
            (from_documents lengthEmbed [Document.mk "llama" "d.pdf",
              Document.mk "alpaca" "d.pdf"]) "q" 1,
          ∀ b ∈ rest,
            dotProduct (lengthEmbed "q") b.vec
              ≤ dotProduct (lengthEmbed "q") a.vec) ∧
        ∀ e ∈ from_documents lengthEmbed [Document.mk "llama" "d.pdf",
            Document.mk "alpaca" "d.pdf"], e.vec = lengthEmbed e.text :=
  retrieve_returns_nearest dotProduct lengthEmbed
    [Document.mk "llama" "d.pdf", Document.mk "alpaca" "d.pdf"] "q" 1

/-- C4: retrieve(query, k) returns at most k entries, and returns fewer
than k only when the index itself holds fewer than k entries. -/
theorem retrieve_at_most_k (sim : List Int → List Int → Int)
    (embed : String → List Int) (idx : List Entry) (q : String) (k : Nat) :
    (retrieve sim embed idx q k).length ≤ k ∧
      ((retrieve sim embed idx q k).length < k → idx.length < k) := by
  have h := retrieve_length sim embed idx q k
  omega

theorem retrieve_at_most_k_witness :
    (retrieve dotProduct lengthEmbed [Entry.mk "x" [1]] "q" 2).length ≤ 2 ∧
      ((retrieve dotProduct lengthEmbed [Entry.mk "x" [1]] "q" 2).length < 2 →
        ([Entry.mk "x" [1]] : List Entry).length < 2) :=
  retrieve_at_most_k dotProduct lengthEmbed [Entry.mk "x" [1]] "q" 2

/-- C5: indexing zero documents yields an empty index, retrieval on the
empty index returns zero entries rather than failing, and the answering
pipeline still issues the model call with an empty context block instead
of short-circuiting. -/
theorem empty_index_still_calls_model (sim : List Int → List Int → Int)
    (embed : String → List Int) (llm : String → ChatMessage) (q : String)
    (k : Nat) :
    from_documents embed [] = [] ∧
      retrieve sim embed [] q k = [] ∧
      build_rag_chain llm (index_documents_and_retrieve sim embed []) q
        = (llm (PromptTemplate_format "" q)).content := by
  refine ⟨rfl, ?_, rfl⟩
  simp [retrieve, similarity_search]

/-- C6: an error raised by the document loader, the retriever, or the
language model surfaces to the caller unmodified; no step retries, falls
back, or degrades to a partial result. -/
theorem errors_propagate_unmodified (C O : Nat) (e1 e2 e3 : String)
    (retr1 retr2 : String → Except String (List Entry))
    (llm : String → Except String ChatMessage) (q : String) (ds : List Entry)
    (h1 : retr1 q = Except.error e2)
    (h2 : retr2 q = Except.ok ds)
    (h3 : llm (PromptTemplate_format (format_context ds) q)
      = Except.error e3) :
    create_chunks_from_pdf (Except.error e1) C O = Except.error e1 ∧
      rag_chain_except retr1 llm q = Except.error e2 ∧
      rag_chain_except retr2 llm q = Except.error e3 := by
  refine ⟨rfl, ?_, ?_⟩
  · unfold rag_chain_except
    rw [h1]
  · unfold rag_chain_except
    rw [h2]
    dsimp only
    rw [h3]

theorem errors_propagate_unmodified_witness :
    create_chunks_from_pdf (Except.error "load failed") 500 50
        = Except.error "load failed" ∧
      rag_chain_except (fun _ => Except.error "index down")
          (fun _ => Except.error "model unreachable") "q"
        = Except.error "index down" ∧
      rag_chain_except (fun _ => Except.ok [])
          (fun _ => Except.error "model unreachable") "q"
        = Except.error "model unreachable" :=
  errors_propagate_unmodified 500 50 "load failed" "index down"
    "model unreachable" (fun _ => Except.error "index down")
    (fun _ => Except.ok []) (fun _ => Except.error "model unreachable")
    "q" [] rfl rfl rfl

/-- C7: a missing or unreadable input directory, and a directory with no
documents, are reported by create_chunks_from_pdf as load failures, not
recovered internally and not turned into an empty success. -/
theorem loader_failure_reported (C O : Nat) :
    create_chunks_from_pdf (DirectoryLoader_load DirState.missing) C O
        = Except.error "directory missing" ∧
      create_chunks_from_pdf (DirectoryLoader_load DirState.unreadable) C O
        = Except.error "directory unreadable" ∧
      create_chunks_from_pdf (DirectoryLoader_load DirState.noDocs) C O
        = Except.error "no documents found" :=
  ⟨rfl, rfl, rfl⟩

/-- C8: the mapping from chunk text to embedding vector is a deterministic
function: every index entry's vector is exactly the embedding of its text,
so two entries with the same text always carry identical vectors. -/
theorem embedding_deterministic (embed : String → List Int)
    (docs : List Document) (e1 e2 : Entry)
    (h1 : e1 ∈ from_documents embed docs)
    (h2 : e2 ∈ from_documents embed docs) (heq : e1.text = e2.text) :
    e1.vec = embed e1.text ∧ e1.vec = e2.vec := by
  have k1 := from_documents_vec embed docs e1 h1
  have k2 := from_documents_vec embed docs e2 h2
  exact ⟨k1, by rw [k1, k2, heq]⟩

theorem embedding_deterministic_witness :
    (Entry.mk "x" [1]).vec = lengthEmbed (Entry.mk "x" [1]).text ∧
      (Entry.mk "x" [1]).vec = (Entry.mk "x" [1]).vec :=
  embedding_deterministic lengthEmbed
    [Document.mk "x" "a.pdf", Document.mk "x" "b.pdf"]
    (Entry.mk "x" [1]) (Entry.mk "x" [1]) (by decide) (by decide) rfl

/-- C9: after the index is populated nothing updates or deletes it — any
sequence of retrieval calls leaves the index unchanged — every entry a
retrieval returns is an entry of the index, and every indexed entry's text
is exactly the chunk text that was inserted. -/
theorem index_immutable_text_preserved (sim : List Int → List Int → Int)
    (embed : String → List Int) (k : Nat) (idx : List Entry)
    (qs : List String) (docs : List Document) (q : String) :
    run_queries sim embed k idx qs = idx ∧
      (∀ e ∈ retrieve sim embed idx q k, e ∈ idx) ∧
      ∀ e ∈ from_documents embed docs, ∃ d ∈ docs, e.text = d.page_content := by
  refine ⟨run_queries_id sim embed k qs idx, ?_, ?_⟩
  · intro e he
    have hmem : e ∈ (idx.insertionSort (moreSim (sim (embed q)))) :=
      List.take_subset _ _ he
    exact (List.mem_insertionSort _).mp hmem
  · intro e he
    unfold from_documents at he
    obtain ⟨d, hd, rfl⟩ := List.mem_map.mp he
    exact ⟨d, hd, rfl⟩

theorem index_immutable_text_preserved_witness :
    run_queries dotProduct lengthEmbed 2 [Entry.mk "x" [1]] ["a", "b"]
        = [Entry.mk "x" [1]] ∧
      Entry.mk "x" [1] ∈ [Entry.mk "x" [1]] :=
  ⟨(index_immutable_text_preserved dotProduct lengthEmbed 2
      [Entry.mk "x" [1]] ["a", "b"] [] "z").1,
    (index_immutable_text_preserved dotProduct lengthEmbed 2
      [Entry.mk "x" [1]] ["a", "b"] [] "z").2.1
      (Entry.mk "x" [1]) (by decide)⟩

/-- C10: the retriever built by index_documents_and_retrieve takes only the
query — it is the default retriever with top-k fixed to 4 — so every
query through it yields at most 4 entries. -/
theorem retriever_default_top_k (sim : List Int → List Int → Int)
    (embed : String → List Int) (docs : List Document) (q : String) :
    index_documents_and_retrieve sim embed docs q
        = retrieve sim embed (from_documents embed docs) q 4 ∧
      (index_documents_and_retrieve sim embed docs q).length ≤ 4 := by
  refine ⟨rfl, ?_⟩
  have h := retrieve_length sim embed (from_documents embed docs) q 4
  show (retrieve sim embed (from_documents embed docs) q 4).length ≤ 4
  omega
